import Mathlib

/-!
Verification of the Money-Stories-Finserve extraction core.

Shallow embedding of the repository's TypeScript source:
* `src/lib/normalization.ts` — `normalizeYear`, `normalizeNumber`,
  `normalizeCategory`, `normalizeRecords`
* `src/lib/schema.ts` — the raw / clean record shapes and the clean-schema check
* the layout engine (`LayoutEngine`) — `groupByRows`, `detectColumns`,
  `alignCellsToColumns`, `buildGrid`
* `src/lib/pipeline.ts` — `callGemini` retry loop and `runExtractionPipeline`
* the single-stage client (`extractFinancialData`) retry loop

JavaScript numbers are modelled as `JsNum` (a rational with the IEEE special
values `NaN`, `±Infinity` as extra constructors); the decimal literals that
occur in this code are exactly representable, so rational arithmetic is a
faithful model of every computation the source performs on them.  Loosely
typed (`any`/optional) fields are modelled with `Option` together with the
JavaScript truthiness convention: `none` stands for `undefined`/`null` and
`some ""` for the (falsy) empty string.
-/

namespace Finserve

/-- A JavaScript number: a finite (decimal) value, `Infinity`, `-Infinity`
or `NaN`.  All numeric literals in the repository are exactly representable
as rationals. -/
inductive JsNum where
  | finite (q : ℚ)
  | posInf
  | negInf
  | nan
deriving DecidableEq, Repr

/-- A loosely-typed JavaScript value as it can appear in the `value` field of
a raw record (`z.any()` in `schema.ts`): `jnull` covers both `null` and
`undefined` (treated identically by the source), `other` covers booleans,
objects and arrays (the source's final `return null` branch). -/
inductive JsValue where
  | jnull
  | num (n : JsNum)
  | str (s : String)
  | other
deriving DecidableEq, Repr

/-! ### JavaScript string primitives used by `normalization.ts` -/

/-- A `\w` word character of JavaScript regexes: `[A-Za-z0-9_]`. -/
def isWordChar (c : Char) : Bool := c.isAlphanum || c = '_'

/-- `\b` holds before the match: the previous character (if any) is not a
word character. -/
def boundaryBefore (prev : Option Char) : Bool :=
  match prev with
  | none => true
  | some p => !(isWordChar p)

/-- `\b` holds after the match: the next character (if any) is not a word
character. -/
def boundaryAfter (rest : List Char) : Bool :=
  match rest with
  | [] => true
  | r :: _ => !(isWordChar r)

/-- Leftmost match of the JavaScript regex `\b(20\d{2})\b` over a character
list; `prev` is the character preceding the current position (for the word
boundary test).  Returns the captured four-character token. -/
def dateMatchAux : Option Char → List Char → Option String
  | _, [] => none
  | prev, c :: cs =>
    if c = '2' then
      match cs with
      | c0 :: d1 :: d2 :: rest =>
        if c0 = '0' && d1.isDigit && d2.isDigit && boundaryBefore prev
            && boundaryAfter rest then
          some (String.mk [c, c0, d1, d2])
        else dateMatchAux (some c) cs
      | _ => dateMatchAux (some c) cs
    else dateMatchAux (some c) cs

/-- `input.match(/\b(20\d{2})\b/)` — the captured group of the leftmost
match, if any. -/
def dateMatch (s : String) : Option String := dateMatchAux none s.data

/-- The greedy `\d{2,4}` tail: up to four leading decimal digits. -/
def fyDigits (cs : List Char) : List Char := (cs.takeWhile Char.isDigit).take 4

/-- Try to match `FY\s?(\d{2,4})` (case-insensitively) at the start of the
list; returns the captured digits. -/
def fyTryAt (cs : List Char) : Option (List Char) :=
  match cs with
  | f :: y :: rest =>
    if (f = 'F' || f = 'f') && (y = 'Y' || y = 'y') then
      match rest with
      | w :: r2 =>
        if w.isWhitespace then
          let ds := fyDigits r2
          if 2 ≤ ds.length then some ds else none
        else
          let ds := fyDigits rest
          if 2 ≤ ds.length then some ds else none
      | [] => none
    else none
  | _ => none

/-- Leftmost match of `FY\s?(\d{2,4})` (flag `i`): scan positions left to
right. -/
def fyScan : List Char → Option (List Char)
  | [] => none
  | c :: cs =>
    match fyTryAt (c :: cs) with
    | some ds => some ds
    | none => fyScan cs

/-- `normalizeYear` from `normalization.ts`: empty input is falsy and yields
`null`; otherwise the first `\b(20\d{2})\b` token wins, else an `FY` match
whose two-digit capture is expanded with the prefix `"20"` (longer captures
are returned verbatim); otherwise `null`. -/
def normalizeYear (input : String) : Option String :=
  if input.data.isEmpty then none
  else
    match dateMatch input with
    | some y => some y
    | none =>
      match fyScan input.data with
      | some ds =>
        some (if ds.length = 2 then String.mk ('2' :: '0' :: ds) else String.mk ds)
      | none => none

/-! ### `parseFloat` and `normalizeNumber` -/

/-- Split a character list into its leading decimal digits and the rest. -/
def splitDigits (cs : List Char) : List Char × List Char :=
  (cs.takeWhile Char.isDigit, cs.dropWhile Char.isDigit)

/-- Decimal digits to a natural number. -/
def digitsToNat (ds : List Char) : Nat :=
  ds.foldl (fun n c => n * 10 + (c.toNat - '0'.toNat)) 0

/-- JavaScript `parseFloat` on a character list: skip leading whitespace,
read an optional sign, accept the literal `Infinity`, otherwise read
`digits [. digits] [(e|E) [sign] digits]`, ignoring any trailing junk, and
return `NaN` (here: `none`) when no digits were read. -/
def parseFloatAux (cs0 : List Char) : Option JsNum :=
  let cs := cs0.dropWhile Char.isWhitespace
  let signed : Bool × List Char :=
    match cs with
    | '-' :: r => (true, r)
    | '+' :: r => (false, r)
    | _ => (false, cs)
  let neg := signed.1
  let cs1 := signed.2
  if ("Infinity".data).isPrefixOf cs1 then
    some (if neg then JsNum.negInf else JsNum.posInf)
  else
    let ints := (splitDigits cs1).1
    let r1 := (splitDigits cs1).2
    let fracSplit : List Char × List Char :=
      match r1 with
      | '.' :: r => splitDigits r
      | _ => ([], r1)
    let fracs := fracSplit.1
    let r2 := fracSplit.2
    if ints.isEmpty && fracs.isEmpty then none
    else
      let mantNum : ℤ := digitsToNat (ints ++ fracs)
      let expo : ℤ :=
        match r2 with
        | e :: r =>
          if e = 'e' || e = 'E' then
            match r with
            | '-' :: r3 =>
              let ds := (splitDigits r3).1
              if ds.isEmpty then 0 else -(digitsToNat ds : ℤ)
            | '+' :: r3 =>
              let ds := (splitDigits r3).1
              if ds.isEmpty then 0 else (digitsToNat ds : ℤ)
            | _ =>
              let ds := (splitDigits r).1
              if ds.isEmpty then 0 else (digitsToNat ds : ℤ)
          else 0
        | [] => 0
      -- the value ± mantNum · 10 ^ expo / 10 ^ |fracs|, assembled as a single
      -- normalized integer fraction
      let num : ℤ := if 0 ≤ expo then mantNum * ((10 ^ expo.toNat : ℕ) : ℤ) else mantNum
      let den : ℕ :=
        if 0 ≤ expo then 10 ^ fracs.length else 10 ^ fracs.length * 10 ^ (-expo).toNat
      some (JsNum.finite (mkRat (if neg then -num else num) den))

/-- JavaScript `parseFloat` on a string (`none` = `NaN`). -/
def parseFloat (s : String) : Option JsNum := parseFloatAux s.data

/-- Split at the first `)` of the list (the lazy body of `\((.*?)\)`); `.`
does not cross a newline. -/
def findCloseSplit : List Char → Option (List Char × List Char)
  | [] => none
  | c :: cs =>
    if c = ')' then some ([], cs)
    else if c = '\n' then none
    else
      match findCloseSplit cs with
      | some (mid, rest) => some (c :: mid, rest)
      | none => none

/-- `str.replace(/\((.*?)\)/, "-$1")` — rewrite the first parenthesised
substring `(body)` as `-body`, leaving the string unchanged when the regex
does not match. -/
def replaceParensList : List Char → List Char
  | [] => []
  | c :: cs =>
    if c = '(' then
      match findCloseSplit cs with
      | some (mid, rest) => '-' :: (mid ++ rest)
      | none => c :: replaceParensList cs
    else c :: replaceParensList cs

/-- `String.prototype.trim`: drop whitespace from both ends. -/
def jsTrim (s : String) : String :=
  String.mk ((((s.data.dropWhile Char.isWhitespace).reverse).dropWhile
    Char.isWhitespace).reverse)

/-- `normalizeNumber` from `normalization.ts`: `null`/`undefined` give
`null`; numbers pass through; strings have every comma removed
(`replace(/,/g, "")`), the first parenthesised group rewritten as a
negation, are trimmed, and fed to `parseFloat` (a `NaN` result gives
`null`); anything else gives `null`. -/
def normalizeNumber : JsValue → Option JsNum
  | JsValue.jnull => none
  | JsValue.num n => some n
  | JsValue.str s =>
    let cleaned := jsTrim (String.mk (replaceParensList (s.data.filter (fun c => c ≠ ','))))
    parseFloat cleaned
  | JsValue.other => none

/-! ### `normalizeCategory` and `normalizeRecords` -/

/-- JavaScript `String.prototype.includes` for our purposes: `pat` occurs as
a contiguous substring of `s`. -/
def strContainsSub (s pat : String) : Bool :=
  (s.data.tails).any (fun t => pat.data.isPrefixOf t)

/-- `normalizeCategory` from `normalization.ts`: case-insensitive keyword
containment on the line-item text, in source order. -/
def normalizeCategory (lineItem : String) : String :=
  let item := String.mk (lineItem.data.map Char.toLower)
  if strContainsSub item "revenue" || strContainsSub item "income" then "Revenue"
  else if strContainsSub item "expense" || strContainsSub item "cost"
      || strContainsSub item "depreciation" then "Expenses"
  else if strContainsSub item "profit" || strContainsSub item "loss" then "Profit"
  else "Other"

/-- The truthy content of an optional string: `none` for `undefined`/`null`
and for the falsy `""`, otherwise the string itself. -/
def truthyStr : Option String → Option String
  | none => none
  | some s => if s = "" then none else some s

/-- A raw record as accepted by `RawRecordSchema` in `schema.ts` (loose:
optional fields, `value` of any type). -/
structure RawRecord where
  category : Option String
  subCategory : Option String
  lineItem : String
  year : String
  value : JsValue
  unit : Option String
  confidence : Option String
  sourceSnippet : Option String
deriving DecidableEq, Repr

/-- A clean record as produced by `normalizeRecords` / declared by
`CleanRecordSchema` in `schema.ts` (`value` and `unit` are nullable in the
schema even though the code never emits `null` for them). -/
structure CleanRecord where
  category : String
  subCategory : Option String
  lineItem : String
  year : String
  value : Option JsNum
  unit : Option String
  confidence : String
  sourceSnippet : String
deriving DecidableEq, Repr

/-- Per-record body of the `normalizeRecords` loop: the three `continue`
guards (unparseable year, unparseable value, falsy evidence snippet)
followed by the pushed object. -/
def normalizeOne (r : RawRecord) : Option CleanRecord :=
  match normalizeYear r.year with
  | none => none
  | some year =>
    match normalizeNumber r.value with
    | none => none
    | some value =>
      match truthyStr r.sourceSnippet with
      | none => none
      | some snippet =>
        some
          { category := (truthyStr r.category).getD (normalizeCategory r.lineItem)
            subCategory := truthyStr r.subCategory
            lineItem := r.lineItem
            year := year
            value := some value
            unit := some ((truthyStr r.unit).getD "Crores")
            confidence :=
              let c := r.confidence.getD ""
              if ["High", "Medium", "Low"].contains c then c else "Medium"
            sourceSnippet := snippet }

/-- The `records` field of the argument of `normalizeRecords` (`raw: any`):
an actual array of raw records, an absent field, or a non-array value. -/
inductive RecordsField where
  | arr (rs : List RawRecord)
  | missing
  | other (v : JsValue)
deriving DecidableEq, Repr

/-- The raw payload handed to `normalizeRecords`. -/
structure RawPayload where
  records : RecordsField
  notes : Option String
deriving DecidableEq, Repr

/-- The object returned by `normalizeRecords` (the shape of
`CleanExtractionSchema`). -/
structure CleanPayload where
  records : List CleanRecord
  yearsDetected : List String
  notes : String
deriving DecidableEq, Repr

/-- Ascending insertion for the JavaScript default `Array.prototype.sort`
(lexicographic string comparison). -/
def sortInsert (s : String) : List String → List String
  | [] => [s]
  | x :: xs => if s ≤ x then s :: x :: xs else x :: sortInsert s xs

/-- Worker for `Array.from(new Set(l))`: keep the elements not seen yet. -/
def dedupAux (seen : List String) : List String → List String
  | [] => []
  | x :: xs =>
    if seen.contains x then dedupAux seen xs
    else x :: dedupAux (x :: seen) xs

/-- `Array.from(new Set(l))`: keep the first occurrence of each element, in
insertion order. -/
def dedupKeepFirst (l : List String) : List String := dedupAux [] l

/-- `Array.isArray(raw.records) ? raw.records : []`. -/
def rawRecordsList (raw : RawPayload) : List RawRecord :=
  match raw.records with
  | RecordsField.arr rs => rs
  | _ => []

/-- `normalizeRecords` from `normalization.ts`: guard the `records` field
with `Array.isArray`, filter each raw record through the loop body, collect
the distinct surviving years in first-occurrence order and sort them, and
pass `raw.notes || ""` through. -/
def normalizeRecords (raw : RawPayload) : CleanPayload :=
  let cleanRecords := (rawRecordsList raw).filterMap normalizeOne
  { records := cleanRecords
    yearsDetected := (dedupKeepFirst (cleanRecords.map (·.year))).foldr sortInsert []
    notes := raw.notes.getD "" }

/-! ### The layout engine (`LayoutEngine` in the source) -/

/-- A positioned text token (`TextItem` in `pdf-processor`). -/
structure TextItem where
  str : String
  x : ℚ
  y : ℚ
  width : ℚ
  height : ℚ
  page : Nat
deriving DecidableEq, Repr

/-- A grid cell: `colIndex` is assigned (or left `undefined`) during column
alignment. -/
structure GridCell where
  x : ℚ
  text : String
  colIndex : Option Nat
deriving DecidableEq, Repr

/-- A grid row anchored at the y of the token that created it. -/
structure GridRow where
  y : ℚ
  cells : List GridCell
deriving DecidableEq, Repr

/-- The grid returned by `buildGrid` (`headers` are the column centroids). -/
structure Grid where
  rows : List GridRow
  headers : List ℚ
deriving DecidableEq, Repr

def ROW_TOLERANCE_Y : ℚ := 5
def COLUMN_TOLERANCE_X : ℚ := 20
def MATCH_TOLERANCE : ℚ := 30

/-- JavaScript `Math.abs`. -/
def mathAbs (q : ℚ) : ℚ := if q < 0 then -q else q

lemma mathAbs_eq_abs (q : ℚ) : mathAbs q = |q| := by
  unfold mathAbs
  by_cases h : q < 0
  · rw [if_pos h, abs_of_neg h]
  · rw [if_neg h, abs_of_nonneg (le_of_not_lt h)]

/-- One step of `groupByRows`: push the token's cell onto the first existing
row with `|row.y - item.y| < ROW_TOLERANCE_Y` (the `rows.find` of the
source), else append a new row anchored at the token's y. -/
def addItem (rows : List GridRow) (item : TextItem) : List GridRow :=
  match rows with
  | [] => [{ y := item.y, cells := [{ x := item.x, text := item.str, colIndex := none }] }]
  | r :: rs =>
    if mathAbs (r.y - item.y) < ROW_TOLERANCE_Y then
      { y := r.y, cells := r.cells ++ [{ x := item.x, text := item.str, colIndex := none }] } :: rs
    else r :: addItem rs item

/-- `groupByRows`: scan tokens in input order. -/
def groupByRows (items : List TextItem) : List GridRow :=
  items.foldl addItem []

/-- Stable descending insertion by row y (the source's stable
`rows.sort((a, b) => b.y - a.y)`). -/
def insertRowDesc (r : GridRow) : List GridRow → List GridRow
  | [] => [r]
  | d :: ds => if d.y ≤ r.y then r :: d :: ds else d :: insertRowDesc r ds

/-- Sort rows top-of-page first (descending y). -/
def sortRowsDesc (rows : List GridRow) : List GridRow :=
  rows.foldr insertRowDesc []

/-- Stable ascending insertion for rationals (the numeric
`sort((a, b) => a - b)`). -/
def insertRatAsc (q : ℚ) : List ℚ → List ℚ
  | [] => [q]
  | x :: xs => if q ≤ x then q :: x :: xs else x :: insertRatAsc q xs

def sortRatAsc (l : List ℚ) : List ℚ := l.foldr insertRatAsc []

/-- The 1-D clustering loop of `detectColumns`: `prev` is the previous
x-value, `sum`/`count` describe the open cluster; a gap strictly larger
than `COLUMN_TOLERANCE_X` closes the cluster at its running mean. -/
def clusterLoop : List ℚ → ℚ → ℚ → ℚ → List ℚ
  | [], _, sum, count => [sum / count]
  | x :: rest, prev, sum, count =>
    if COLUMN_TOLERANCE_X < x - prev then
      (sum / count) :: clusterLoop rest x x 1
    else clusterLoop rest x (sum + x) (count + 1)

/-- `detectColumns`: cluster all cell x-coordinates, sorted ascending. -/
def detectColumns (rows : List GridRow) : List ℚ :=
  let allX := sortRatAsc ((rows.map (·.cells)).flatten.map (·.x))
  match allX with
  | [] => []
  | x :: rest => clusterLoop rest x x 1

/-- The argmin of `alignCellsToColumns`: the index of the closest column,
provided its distance is strictly below `MATCH_TOLERANCE` (ties keep the
earlier index, matching the source's strict `<` update). -/
def bestCol (x : ℚ) (cols : List ℚ) : Option Nat :=
  (cols.enum.foldl
    (fun acc ic =>
      let diff := mathAbs (x - ic.2)
      match acc.2 with
      | none => if diff < MATCH_TOLERANCE then (some ic.1, some diff) else acc
      | some m => if diff < m ∧ diff < MATCH_TOLERANCE then (some ic.1, some diff) else acc)
    ((none, none) : Option Nat × Option ℚ)).1

/-- Stable ascending insertion of cells by x. -/
def insertCellAsc (c : GridCell) : List GridCell → List GridCell
  | [] => [c]
  | d :: ds => if c.x ≤ d.x then c :: d :: ds else d :: insertCellAsc c ds

def sortCellsAsc (cells : List GridCell) : List GridCell :=
  cells.foldr insertCellAsc []

/-- `alignCellsToColumns`: per row, sort cells by x, then assign each cell
the closest column index within `MATCH_TOLERANCE` (otherwise the cell's
`colIndex` stays `undefined`). -/
def alignCellsToColumns (rows : List GridRow) (cols : List ℚ) : List GridRow :=
  rows.map (fun row =>
    { y := row.y
      cells := (sortCellsAsc row.cells).map
        (fun cell => { cell with colIndex := bestCol cell.x cols }) })

/-- `buildGrid`: group by rows, sort descending, detect columns, align. -/
def buildGrid (items : List TextItem) : Grid :=
  let rows := groupByRows items
  let rows := sortRowsDesc rows
  let cols := detectColumns rows
  { rows := alignCellsToColumns rows cols, headers := cols }

/-! ### Pipeline stage shapes (`schema.ts`) -/

inductive DetectConfidence where
  | high | medium | low
deriving DecidableEq, Repr

inductive TableType where
  | income_statement | balance_sheet | cash_flow | otherTable | unknown
deriving DecidableEq, Repr

/-- The validated result of the detection stage (`TableDetectionSchema`). -/
structure TableDetection where
  hasTable : Bool
  tableType : TableType
  confidence : DetectConfidence
deriving DecidableEq, Repr

inductive ColType where
  | quarter | nine_months | year | unknown
deriving DecidableEq, Repr

inductive Category where
  | Revenue | Expenses | Profit | Other
deriving DecidableEq, Repr

def categoryStr : Category → String
  | Category.Revenue => "Revenue"
  | Category.Expenses => "Expenses"
  | Category.Profit => "Profit"
  | Category.Other => "Other"

/-- A classified column (`TableClassificationSchema.columns` entry); the
schema's `z.number()` index is modelled as an integer, which is how the
source uses it (array indexing and `===` against integer `colIndex`). -/
structure ClassCol where
  index : ℤ
  type : ColType
  year : Option String
deriving DecidableEq, Repr

/-- A classified row (`TableClassificationSchema.rows` entry). -/
structure ClassRow where
  index : ℤ
  category : Category
  normalizedName : Option String
deriving DecidableEq, Repr

/-- The validated result of the classification stage. -/
structure TableClassification where
  columns : List ClassCol
  rows : List ClassRow
deriving DecidableEq, Repr

/-- JavaScript array indexing `l[i]`: `undefined` off either end. -/
def listGetJs (l : List α) (i : ℤ) : Option α :=
  if i < 0 then none else l.get? i.toNat

/-- `gridRow.cells.find(c => c.colIndex === classCol.index)`. -/
def cellAtIntersection (row : GridRow) (colIdx : ℤ) : Option GridCell :=
  row.cells.find? (fun c =>
    match c.colIndex with
    | some n => decide ((n : ℤ) = colIdx)
    | none => false)

/-- The record pushed by the merge loop of `runExtractionPipeline`. -/
def mergeRecord (cat : Category) (lineItem year text : String) : RawRecord :=
  { category := some (categoryStr cat)
    subCategory := none
    lineItem := lineItem
    year := year
    value := JsValue.str text
    unit := none
    confidence := some "High"
    sourceSnippet := some (lineItem ++ ": " ++ text) }

/-- `gridRow.cells[0]?.text || "Unknown"`. -/
def jsLineItem (gridRow : GridRow) : String :=
  match gridRow.cells.head? with
  | some c => if c.text = "" then "Unknown" else c.text
  | none => "Unknown"

/-- Body of the inner `classification.columns.forEach` of the merge step:
on a `year` column with truthy `year`, push a record when the first cell
with that `colIndex` exists and has truthy text; otherwise keep the
accumulator. -/
def mergePush (gridRow : GridRow) (cat : Category) (lineItem : String)
    (acc2 : List RawRecord) (cc : ClassCol) : List RawRecord :=
  if cc.type = ColType.year then
    match cc.year with
    | some y =>
      if y = "" then acc2
      else
        match cellAtIntersection gridRow cc.index with
        | some cell =>
          if cell.text = "" then acc2
          else acc2 ++ [mergeRecord cat lineItem y cell.text]
        | none => acc2
    | none => acc2
  else acc2

/-- STEP 4 of `runExtractionPipeline` (the deterministic merge), translated
push-for-push: skip classified rows whose index does not resolve
(`if (!gridRow) continue`), take the line item as
`cells[0]?.text || "Unknown"`, and run the inner column loop. -/
def mergeStep (gridRows : List GridRow) (cls : TableClassification) : List RawRecord :=
  cls.rows.foldl
    (fun acc cr =>
      match listGetJs gridRows cr.index with
      | none => acc
      | some gridRow =>
        cls.columns.foldl (mergePush gridRow cr.category (jsLineItem gridRow)) acc)
    []

/-- The records that the deterministic-merge sentence of the specification
emits for one classified column of a resolved row: one record per `year`
column with a resolved year whose grid cell at the row/column intersection
exists and has non-empty text. -/
def mergeEmit (gridRow : GridRow) (cat : Category) (lineItem : String)
    (cc : ClassCol) : List RawRecord :=
  if cc.type = ColType.year then
    match cc.year with
    | some y =>
      if y = "" then []
      else
        match cellAtIntersection gridRow cc.index with
        | some cell =>
          if cell.text = "" then []
          else [mergeRecord cat lineItem y cell.text]
        | none => []
    | none => []
  else []

/-- The merge step exactly as the claim words it, taking the line item to be
"the text of that grid row's first cell". -/
def mergeSpecC2 (gridRows : List GridRow) (cls : TableClassification) : List RawRecord :=
  cls.rows.flatMap fun cr =>
    match listGetJs gridRows cr.index with
    | none => []
    | some gridRow =>
      cls.columns.flatMap
        (mergeEmit gridRow cr.category ((gridRow.cells.head?.map (·.text)).getD ""))

/-- The merge step as the amended claim words it: the line item is the text
of the row's first cell when that text is non-empty, and `"Unknown"` when
the row has no first cell or its text is empty. -/
def mergeSpecAmended (gridRows : List GridRow) (cls : TableClassification) : List RawRecord :=
  cls.rows.flatMap fun cr =>
    match listGetJs gridRows cr.index with
    | none => []
    | some gridRow =>
      cls.columns.flatMap (mergeEmit gridRow cr.category (jsLineItem gridRow))

/-! ### Clean-schema validation and the pipeline -/

/-- `/^\d{4}$/` of `CleanRecordSchema`. -/
def isFourDigits (s : String) : Bool :=
  s.data.length = 4 && s.data.all Char.isDigit

/-- Validity of one record under `CleanRecordSchema` (typing of the other
fields is carried by the `CleanRecord` structure itself; `z.number()`
rejects `NaN`). -/
def cleanRecordValid (c : CleanRecord) : Bool :=
  isFourDigits c.year
    && ["High", "Medium", "Low"].contains c.confidence
    && c.value ≠ some JsNum.nan

/-- `CleanExtractionSchema.parse`: succeed on the payload or throw. -/
def parseCleanExtraction (p : CleanPayload) : Except String CleanPayload :=
  if p.records.all cleanRecordValid then Except.ok p
  else Except.error "ZodError: CleanExtractionSchema validation failed"

/-- The pipeline's observable outcome together with the list of stages it
actually ran (instrumentation of the source's control flow). -/
structure PipelineOut where
  result : Except String CleanPayload
  stages : List String
deriving Repr

/-- `runExtractionPipeline` from `pipeline.ts`, with the two oracle
responses (detection, classification) passed in as the validated values the
retry helper would have produced.  When detection reports no table or low
confidence the function returns the fixed empty result before the layout
engine, the classification stage or normalization run; otherwise it builds
the grid from page-1 tokens, merges, normalizes, and parses the result
against `CleanExtractionSchema`. -/
def runExtractionPipeline (textData : List TextItem) (detection : TableDetection)
    (classification : TableClassification) : PipelineOut :=
  if detection.hasTable = false ∨ detection.confidence = DetectConfidence.low then
    { result := Except.ok
        { records := [], yearsDetected := [], notes := "No financial table detected." }
      stages := ["DETECTION"] }
  else
    let page1Text := textData.filter (fun t => t.page = 1)
    let grid := buildGrid page1Text
    let rawRecords := mergeStep grid.rows classification
    let normalized := normalizeRecords { records := RecordsField.arr rawRecords, notes := none }
    { result := parseCleanExtraction normalized
      stages := ["DETECTION", "LAYOUT", "CLASSIFICATION", "NORMALIZATION"] }

/-! ### Retry loops (`callGemini` in `pipeline.ts`; `extractFinancialData`) -/

/-- The outcome of one attempt of the `callGemini` try-block, after the
response text has been fence-stripped: the service call itself can throw,
`JSON.parse` can throw, or the zod `safeParse` can fail (in which case the
source throws its own stage-labelled message). -/
inductive GenOutcome (α : Type) where
  | ok (a : α)
  | serviceError (msg : String)
  | malformedJson (msg : String)
  | schemaMismatch
deriving DecidableEq, Repr

def isFailure : GenOutcome α → Bool
  | GenOutcome.ok _ => false
  | _ => true

/-- The message of the error thrown by a failing attempt of `callGemini`
(only the schema-mismatch branch constructs a stage-labelled message; the
`ok` case never reaches this function). -/
def failureMsg (stage : String) : GenOutcome α → String
  | GenOutcome.ok _ => ""
  | GenOutcome.serviceError m => m
  | GenOutcome.malformedJson m => m
  | GenOutcome.schemaMismatch => "Invalid JSON structure for " ++ stage

/-- The retry loop of `callGemini`, instrumented with the sleeps it performs
and the number of attempts it makes: on a failed attempt that is not the
last, sleep `1000 * attempt` ms and continue; on the last, rethrow the
caught error. -/
def callGeminiAux (stage : String) (oracle : Nat → GenOutcome α) :
    Nat → Nat → Except String α × List Nat × Nat
  | _, 0 => (Except.error "retry loop exhausted", [], 0)
  | attempt, 1 =>
    match oracle attempt with
    | GenOutcome.ok a => (Except.ok a, [], 1)
    | f => (Except.error (failureMsg stage f), [], 1)
  | attempt, r + 2 =>
    match oracle attempt with
    | GenOutcome.ok a => (Except.ok a, [], 1)
    | _ =>
      let rest := callGeminiAux stage oracle (attempt + 1) (r + 1)
      (rest.1, (1000 * attempt) :: rest.2.1, rest.2.2 + 1)

/-- `callGemini` with its source constant `MAX_RETRIES = 2`. -/
def callGemini (stage : String) (oracle : Nat → GenOutcome α) :
    Except String α × List Nat × Nat :=
  callGeminiAux stage oracle 1 2

/-- The inner retry loop of `extractFinancialData`: `MAX_RETRIES = 3`, a
sleep of `1000 * 2 ^ (attempt - 1)` ms after each failed non-final attempt,
and `throw lastError` after the loop. -/
def extractAux (oracle : Nat → Except String α) :
    Nat → Nat → Except String α × List Nat × Nat
  | _, 0 => (Except.error "Failed to extract data from Gemini after retries.", [], 0)
  | attempt, 1 =>
    match oracle attempt with
    | Except.ok a => (Except.ok a, [], 1)
    | Except.error m => (Except.error m, [], 1)
  | attempt, r + 2 =>
    match oracle attempt with
    | Except.ok a => (Except.ok a, [], 1)
    | Except.error _ =>
      let rest := extractAux oracle (attempt + 1) (r + 1)
      (rest.1, (1000 * 2 ^ (attempt - 1)) :: rest.2.1, rest.2.2 + 1)

/-- `extractFinancialData`'s retry behaviour: the inner loop, wrapped in the
outer `catch` that replaces any propagated error with the fixed message
`"Failed to extract data from Gemini."`. -/
def extractFinancialData (oracle : Nat → Except String α) :
    Except String α × List Nat × Nat :=
  let inner := extractAux oracle 1 3
  match inner.1 with
  | Except.ok a => (Except.ok a, inner.2.1, inner.2.2)
  | Except.error _ => (Except.error "Failed to extract data from Gemini.", inner.2.1, inner.2.2)

/-! ### Auxiliary predicates for the claims -/

def exceptIsOk : Except ε α → Bool
  | Except.ok _ => true
  | Except.error _ => false

/-- The raw-record view of a clean record (how the already-clean set re-enters
`normalizeRecords`, null `value` becoming `null`). -/
def injRaw (c : CleanRecord) : RawRecord :=
  { category := some c.category
    subCategory := c.subCategory
    lineItem := c.lineItem
    year := c.year
    value :=
      match c.value with
      | some n => JsValue.num n
      | none => JsValue.jnull
    unit := c.unit
    confidence := some c.confidence
    sourceSnippet := some c.sourceSnippet }

/-- The year has the shape `20` followed by two digits. -/
def isYear20xx (s : String) : Bool :=
  match s.data with
  | [c1, c2, c3, c4] => c1 = '2' && c2 = '0' && c3.isDigit && c4.isDigit
  | _ => false

/-- Sufficient conditions for a clean record to be a fixed point of the
normalization loop: year of the form `20xx`, non-null value, non-empty
evidence snippet and category, a non-empty unit string, a subcategory that
is not the (falsy) empty string, and an in-range confidence value. -/
def fixpointReady (c : CleanRecord) : Bool :=
  isYear20xx c.year
    && c.value.isSome
    && !(c.sourceSnippet = "")
    && !(c.category = "")
    && (match c.unit with
        | some u => !(u = "")
        | none => false)
    && !(c.subCategory = some "")
    && ["High", "Medium", "Low"].contains c.confidence

/-! ## Lemmas -/

lemma truthyStr_eq_some {o : Option String} {s : String} (h : truthyStr o = some s) :
    o = some s ∧ s ≠ "" := by
  cases o with
  | none => simp [truthyStr] at h
  | some t =>
    unfold truthyStr at h
    by_cases ht : t = ""
    · simp [ht] at h
    · simp [ht] at h
      exact ⟨by rw [h], h ▸ ht⟩

/-- A surviving record of the normalization loop carries the (truthy)
snippet of its raw record and a non-null value. -/
lemma normalizeOne_eq_some {r : RawRecord} {c : CleanRecord}
    (h : normalizeOne r = some c) :
    r.sourceSnippet = some c.sourceSnippet ∧ c.sourceSnippet ≠ "" ∧
      c.value.isSome = true := by
  cases hy : normalizeYear r.year with
  | none => simp [normalizeOne, hy] at h
  | some year =>
    cases hv : normalizeNumber r.value with
    | none => simp [normalizeOne, hy, hv] at h
    | some value =>
      cases hs : truthyStr r.sourceSnippet with
      | none => simp [normalizeOne, hy, hv, hs] at h
      | some snippet =>
        simp only [normalizeOne, hy, hv, hs, Option.some.injEq] at h
        subst h
        obtain ⟨hso, hne⟩ := truthyStr_eq_some hs
        exact ⟨hso, hne, rfl⟩

/-! ## Claims -/

/-- **C1** (confirmed).  Evidence invariant: for every raw input, every
record in the output of `normalizeRecords` has a non-empty `sourceSnippet`,
and it is the snippet of a raw record of the input whose snippet was
present and non-empty — raw records with a missing or empty snippet are
dropped and never appear. -/
theorem C1_evidence_invariant (raw : RawPayload) (c : CleanRecord)
    (hc : c ∈ (normalizeRecords raw).records) :
    c.sourceSnippet ≠ "" ∧
      ∃ r ∈ rawRecordsList raw, r.sourceSnippet = some c.sourceSnippet := by
  have hc' : c ∈ (rawRecordsList raw).filterMap normalizeOne := hc
  rw [List.mem_filterMap] at hc'
  obtain ⟨r, hr, hro⟩ := hc'
  obtain ⟨hso, hne, _⟩ := normalizeOne_eq_some hro
  exact ⟨hne, r, hr, hso⟩

/-- Witness for C1 at a concrete input. -/
theorem C1_evidence_invariant_witness :
    ("Revenue: 100" : String) ≠ "" ∧
      ∃ r ∈ rawRecordsList
          ⟨RecordsField.arr
            [⟨some "Revenue", none, "Revenue", "FY24", JsValue.str "100", none,
              some "High", some "Revenue: 100"⟩], none⟩,
        r.sourceSnippet = some "Revenue: 100" :=
  C1_evidence_invariant
    ⟨RecordsField.arr
      [⟨some "Revenue", none, "Revenue", "FY24", JsValue.str "100", none,
        some "High", some "Revenue: 100"⟩], none⟩
    ⟨"Revenue", none, "Revenue", "2024", some (JsNum.finite 100), some "Crores",
      "High", "Revenue: 100"⟩
    (by decide)

/-- **C9** (confirmed).  Implicit invariant: every record in the output of
`normalizeRecords` has a non-null value (the clean schema would allow
`null`, but a raw record whose value normalizes to `null` is dropped). -/
theorem C9_value_nonnull (raw : RawPayload) (c : CleanRecord)
    (hc : c ∈ (normalizeRecords raw).records) : c.value.isSome = true := by
  have hc' : c ∈ (rawRecordsList raw).filterMap normalizeOne := hc
  rw [List.mem_filterMap] at hc'
  obtain ⟨r, _, hro⟩ := hc'
  exact (normalizeOne_eq_some hro).2.2

/-- Witness for C9 at a concrete input. -/
theorem C9_value_nonnull_witness :
    (some (JsNum.finite (-500)) : Option JsNum).isSome = true :=
  C9_value_nonnull
    ⟨RecordsField.arr
      [⟨none, none, "Net Loss", "2023", JsValue.str "(500)", some "INR",
        some "Low", some "Net Loss: (500)"⟩], some "n"⟩
    ⟨"Profit", none, "Net Loss", "2023", some (JsNum.finite (-500)), some "INR",
      "Low", "Net Loss: (500)"⟩
    (by decide)

/-- **C10** (confirmed).  `normalizeRecords` is total on a malformed
`records` field: when it is missing or not an array the result is the empty
record list, empty years, and `raw.notes || ""`. -/
theorem C10_malformed_total (raw : RawPayload)
    (h : raw.records = RecordsField.missing ∨
      ∃ v, raw.records = RecordsField.other v) :
    normalizeRecords raw =
      { records := [], yearsDetected := [], notes := raw.notes.getD "" } := by
  rcases h with h | ⟨v, h⟩ <;>
    simp [normalizeRecords, rawRecordsList, h, dedupKeepFirst, dedupAux]

/-- Witness for C10 at a concrete input. -/
theorem C10_malformed_total_witness :
    normalizeRecords ⟨RecordsField.missing, some "kept note"⟩ =
      { records := [], yearsDetected := [], notes := "kept note" } :=
  C10_malformed_total ⟨RecordsField.missing, some "kept note"⟩ (Or.inl rfl)

/-- **C4** (code_bug).  `normalizeNumber` does pass numbers through and
maps `"(500)"` to `-500` and `"N/A"` to `null`, but `"$1,234.00"` does NOT
normalize to `1234.00` as the claim (and the source's own comment
`// Normalize VALUE: "$1,234.00" -> 1234.00`) states: `parseFloat` rejects
the leading `$`, so the value is `null` and `normalizeRecords` drops the
record. -/
theorem C4_number_normalization_bug :
    normalizeNumber (JsValue.str "$1,234.00") = none
  ∧ normalizeNumber (JsValue.str "(500)") = some (JsNum.finite (-500))
  ∧ normalizeNumber (JsValue.str "N/A") = none
  ∧ normalizeNumber (JsValue.num (JsNum.finite 1234)) = some (JsNum.finite 1234)
  ∧ (normalizeRecords
      ⟨RecordsField.arr
        [⟨some "Revenue", none, "Revenue", "2024", JsValue.str "$1,234.00",
          none, some "High", some "Revenue: $1,234.00"⟩], none⟩).records = [] := by
  decide

/-- **C5** (code_bug).  The year-format invariant fails: `normalizeYear`
can also return a 3-digit string (the `FY\s?(\d{2,4})` capture is returned
verbatim whenever its length is not 2), so `normalizeRecords` can emit a
record whose `year` does not match `^\d{4}$` — contradicting the source's
own `CleanRecordSchema` regex, which `CleanExtractionSchema.parse` in the
pipeline enforces (it would throw on this payload). -/
theorem C5_year_format_bug :
    normalizeYear "FY123" = some "123"
  ∧ isFourDigits "123" = false
  ∧ (normalizeRecords
      ⟨RecordsField.arr
        [⟨none, none, "Revenue", "FY123", JsValue.num (JsNum.finite 100), none,
          some "High", some "Revenue: 100"⟩], none⟩).records.map (·.year) = ["123"]
  ∧ exceptIsOk (parseCleanExtraction (normalizeRecords
      ⟨RecordsField.arr
        [⟨none, none, "Revenue", "FY123", JsValue.num (JsNum.finite 100), none,
          some "High", some "Revenue: 100"⟩], none⟩)) = false := by
  decide

/-- **C3** (confirmed).  No-table short-circuit: when detection reports no
table or low confidence, `runExtractionPipeline` returns exactly the empty
result with the fixed note, and the only stage that ran is detection — the
layout engine, the classification stage and normalization are not
invoked. -/
theorem C3_no_table_short_circuit (textData : List TextItem)
    (det : TableDetection) (cls : TableClassification)
    (h : det.hasTable = false ∨ det.confidence = DetectConfidence.low) :
    runExtractionPipeline textData det cls =
      { result := Except.ok
          { records := [], yearsDetected := [], notes := "No financial table detected." }
        stages := ["DETECTION"] } := by
  unfold runExtractionPipeline
  rcases h with h | h <;> simp [h]

lemma mergePush_eq (gridRow : GridRow) (cat : Category) (li : String)
    (acc : List RawRecord) (cc : ClassCol) :
    mergePush gridRow cat li acc cc = acc ++ mergeEmit gridRow cat li cc := by
  unfold mergePush mergeEmit
  by_cases ht : cc.type = ColType.year
  · simp only [if_pos ht]
    cases cc.year with
    | none => simp
    | some y =>
      by_cases hy : y = ""
      · simp [hy]
      · simp only [if_neg hy]
        cases cellAtIntersection gridRow cc.index with
        | none => simp
        | some cell =>
          by_cases hc : cell.text = "" <;> simp [hc]
  · simp [ht]

lemma foldl_mergePush (gridRow : GridRow) (cat : Category) (li : String)
    (cols : List ClassCol) :
    ∀ acc, cols.foldl (mergePush gridRow cat li) acc
      = acc ++ cols.flatMap (mergeEmit gridRow cat li) := by
  induction cols with
  | nil => intro acc; simp
  | cons cc cols ih =>
    intro acc
    rw [List.foldl_cons, mergePush_eq, ih, List.flatMap_cons, List.append_assoc]

lemma foldl_mergeRows (gridRows : List GridRow) (cols : List ClassCol)
    (rows : List ClassRow) :
    ∀ acc,
      rows.foldl (fun acc cr =>
          match listGetJs gridRows cr.index with
          | none => acc
          | some gridRow =>
            cols.foldl (mergePush gridRow cr.category (jsLineItem gridRow)) acc) acc
        = acc ++ rows.flatMap (fun cr =>
            match listGetJs gridRows cr.index with
            | none => []
            | some gridRow =>
              cols.flatMap (mergeEmit gridRow cr.category (jsLineItem gridRow))) := by
  induction rows with
  | nil => intro acc; simp
  | cons cr rows ih =>
    intro acc
    rw [List.foldl_cons, List.flatMap_cons]
    cases h : listGetJs gridRows cr.index with
    | none => simp only [h]; rw [ih]; simp
    | some gridRow =>
      simp only [h]
      rw [ih, foldl_mergePush, List.append_assoc]

/-- **C2** (corrected).  The merge step of `runExtractionPipeline` emits
records exactly as the (amended) claim describes: for every classified row
whose index resolves and every `year` column with a resolved year, one
record per non-empty grid cell at the intersection, with the exact cell
text, snippet `"<lineItem>: <value>"`, confidence `"High"`, null
subcategory and unit — where the line item is the text of the row's first
cell when that text is non-empty and `"Unknown"` otherwise. -/
theorem C2_merge_exactness (gridRows : List GridRow) (cls : TableClassification) :
    mergeStep gridRows cls = mergeSpecAmended gridRows cls := by
  unfold mergeStep mergeSpecAmended
  rw [foldl_mergeRows]
  simp

/-- Counterexample to C2 as stated: when the first cell of a resolved grid
row has empty text, the source emits line item `"Unknown"` (the
`|| "Unknown"` fallback), not the first cell's text `""` that the claim
prescribes — the emitted snippet differs accordingly. -/
theorem C2_merge_lineitem_cx :
    mergeStep [⟨0, [⟨0, "", some 0⟩, ⟨50, "100", some 1⟩]⟩]
        ⟨[⟨1, ColType.year, some "2024"⟩], [⟨0, Category.Revenue, none⟩]⟩
      ≠ mergeSpecC2 [⟨0, [⟨0, "", some 0⟩, ⟨50, "100", some 1⟩]⟩]
        ⟨[⟨1, ColType.year, some "2024"⟩], [⟨0, Category.Revenue, none⟩]⟩
  ∧ (mergeStep [⟨0, [⟨0, "", some 0⟩, ⟨50, "100", some 1⟩]⟩]
        ⟨[⟨1, ColType.year, some "2024"⟩], [⟨0, Category.Revenue, none⟩]⟩).map
      (fun r => r.lineItem) = ["Unknown"]
  ∧ (mergeSpecC2 [⟨0, [⟨0, "", some 0⟩, ⟨50, "100", some 1⟩]⟩]
        ⟨[⟨1, ColType.year, some "2024"⟩], [⟨0, Category.Revenue, none⟩]⟩).map
      (fun r => r.lineItem) = [""] := by
  decide

/-- **C6** (corrected).  Retry exhaustion: when every attempt fails (and
malformed JSON, schema failures and service errors are handled by the same
catch), `callGemini` makes exactly its `MAX_RETRIES = 2` attempts with a
single 1 s delay and rethrows the last caught error — which carries the
stage label only when it was the schema-validation failure — while
`extractFinancialData` makes exactly 3 attempts with 1 s and 2 s delays and
raises the fixed message `"Failed to extract data from Gemini."`. -/
theorem C6_retry_exhaustion (stage : String) (g : Nat → GenOutcome α)
    (f : Nat → Except String β)
    (hg1 : isFailure (g 1) = true) (hg2 : isFailure (g 2) = true)
    (hf1 : exceptIsOk (f 1) = false) (hf2 : exceptIsOk (f 2) = false)
    (hf3 : exceptIsOk (f 3) = false) :
    callGemini stage g = (Except.error (failureMsg stage (g 2)), [1000], 2)
  ∧ extractFinancialData f =
      (Except.error "Failed to extract data from Gemini.", [1000, 2000], 3) := by
  constructor
  · cases hg1' : g 1 <;> cases hg2' : g 2 <;>
      simp_all [callGemini, callGeminiAux, isFailure, failureMsg]
  · cases hf1' : f 1 <;> cases hf2' : f 2 <;> cases hf3' : f 3 <;>
      simp_all [extractFinancialData, extractAux, exceptIsOk]

/-- Witness for C6 at concrete failing oracles. -/
theorem C6_retry_exhaustion_witness :
    callGemini "CLASSIFICATION" (fun _ => (GenOutcome.schemaMismatch : GenOutcome Unit))
      = (Except.error (failureMsg "CLASSIFICATION"
          (GenOutcome.schemaMismatch : GenOutcome Unit)), [1000], 2)
  ∧ extractFinancialData (fun _ => (Except.error "boom" : Except String Unit))
      = (Except.error "Failed to extract data from Gemini.", [1000, 2000], 3) :=
  C6_retry_exhaustion "CLASSIFICATION"
    (fun _ => (GenOutcome.schemaMismatch : GenOutcome Unit))
    (fun _ => (Except.error "boom" : Except String Unit)) rfl rfl rfl rfl rfl

/-- Counterexample to C6 as stated: the propagated error is NOT always
labelled with the stage name — a service error that fails both attempts of
`callGemini` is rethrown verbatim, without the stage label. -/
theorem C6_retry_label_cx :
    callGemini "DETECTION"
        (fun _ => (GenOutcome.serviceError "network down" : GenOutcome Unit))
      = (Except.error "network down", [1000], 2)
  ∧ strContainsSub "network down" "DETECTION" = false :=
  ⟨rfl, by decide⟩

lemma addItem_no_match (item : TextItem) :
    ∀ rows : List GridRow,
      (∀ r ∈ rows, ROW_TOLERANCE_Y ≤ mathAbs (r.y - item.y)) →
      addItem rows item = rows ++ [⟨item.y, [⟨item.x, item.str, none⟩]⟩] := by
  intro rows
  induction rows with
  | nil => intro _; rfl
  | cons r rs ih =>
    intro h
    have hr := h r (List.mem_cons_self r rs)
    unfold addItem
    rw [if_neg (not_lt.mpr hr), ih (fun r' hr' => h r' (List.mem_cons_of_mem r hr'))]
    rfl

lemma addItem_match (item : TextItem) :
    ∀ (pre : List GridRow) (r : GridRow) (post : List GridRow),
      (∀ r' ∈ pre, ROW_TOLERANCE_Y ≤ mathAbs (r'.y - item.y)) →
      mathAbs (r.y - item.y) < ROW_TOLERANCE_Y →
      addItem (pre ++ r :: post) item =
        pre ++ ⟨r.y, r.cells ++ [⟨item.x, item.str, none⟩]⟩ :: post := by
  intro pre
  induction pre with
  | nil =>
    intro r post _ hr
    simp only [List.nil_append]
    unfold addItem
    rw [if_pos hr]
  | cons p pre ih =>
    intro r post hpre hr
    have hp := hpre p (List.mem_cons_self p pre)
    simp only [List.cons_append]
    unfold addItem
    rw [if_neg (not_lt.mpr hp),
      ih r post (fun r' h' => hpre r' (List.mem_cons_of_mem p h')) hr]

/-- **C7** (corrected).  Row grouping: appending one token to the scan
either joins the FIRST existing row whose anchor differs from the token's y
by strictly less than `ROW_TOLERANCE_Y` (appending its cell there, anchors
unchanged), or — when every existing anchor is at distance at least
`ROW_TOLERANCE_Y` — starts a new row anchored at the token's y.  (Two
tokens within tolerance of each other need NOT share a row: an earlier
anchor can capture one of them, see the counterexample.) -/
theorem C7_row_grouping (items : List TextItem) (item : TextItem) :
    ((∀ r ∈ groupByRows items, ROW_TOLERANCE_Y ≤ mathAbs (r.y - item.y)) →
        groupByRows (items ++ [item]) =
          groupByRows items ++ [⟨item.y, [⟨item.x, item.str, none⟩]⟩])
  ∧ (∀ pre r post, groupByRows items = pre ++ r :: post →
      (∀ r' ∈ pre, ROW_TOLERANCE_Y ≤ mathAbs (r'.y - item.y)) →
      mathAbs (r.y - item.y) < ROW_TOLERANCE_Y →
        groupByRows (items ++ [item]) =
          pre ++ ⟨r.y, r.cells ++ [⟨item.x, item.str, none⟩]⟩ :: post) := by
  have hfold : groupByRows (items ++ [item]) = addItem (groupByRows items) item := by
    unfold groupByRows
    rw [List.foldl_append]
    rfl
  constructor
  · intro h
    rw [hfold]
    exact addItem_no_match item _ h
  · intro pre r post heq hpre hr
    rw [hfold, heq]
    exact addItem_match item pre r post hpre hr

/-- Witness for C7 at a concrete input (a token far from every anchor
starts a new row). -/
theorem C7_row_grouping_witness :
    groupByRows ([⟨"a", 0, 0, 1, 1, 1⟩] ++ [⟨"c", 20, 8, 1, 1, 1⟩]) =
      groupByRows [⟨"a", 0, 0, 1, 1, 1⟩] ++ [⟨8, [⟨20, "c", none⟩]⟩] :=
  (C7_row_grouping [⟨"a", 0, 0, 1, 1, 1⟩] ⟨"c", 20, 8, 1, 1, 1⟩).1 (by
    intro r hr
    have hrows : groupByRows [⟨"a", 0, 0, 1, 1, 1⟩] = [⟨0, [⟨0, "a", none⟩]⟩] := rfl
    rw [hrows, List.mem_singleton] at hr
    subst hr
    norm_num [mathAbs, ROW_TOLERANCE_Y])

/-- Counterexample to C7 as stated: tokens at y = 4 and y = 8 differ by
less than `ROW_TOLERANCE_Y = 5`, yet they do NOT land in the same row,
because an earlier anchor at y = 0 captures the first of them (first-match
chaining). -/
theorem C7_row_grouping_cx :
    mathAbs ((4 : ℚ) - 8) < ROW_TOLERANCE_Y
  ∧ groupByRows [⟨"a", 0, 0, 1, 1, 1⟩, ⟨"b", 10, 4, 1, 1, 1⟩, ⟨"c", 20, 8, 1, 1, 1⟩] =
      [⟨0, [⟨0, "a", none⟩, ⟨10, "b", none⟩]⟩, ⟨8, [⟨20, "c", none⟩]⟩]
  ∧ ¬ ∃ row ∈ groupByRows
        [⟨"a", 0, 0, 1, 1, 1⟩, ⟨"b", 10, 4, 1, 1, 1⟩, ⟨"c", 20, 8, 1, 1, 1⟩],
      (⟨10, "b", none⟩ : GridCell) ∈ row.cells ∧
        (⟨20, "c", none⟩ : GridCell) ∈ row.cells := by
  have h2 : groupByRows
      [⟨"a", 0, 0, 1, 1, 1⟩, ⟨"b", 10, 4, 1, 1, 1⟩, ⟨"c", 20, 8, 1, 1, 1⟩] =
      [⟨0, [⟨0, "a", none⟩, ⟨10, "b", none⟩]⟩, ⟨8, [⟨20, "c", none⟩]⟩] := by
    norm_num [groupByRows, addItem, mathAbs, ROW_TOLERANCE_Y]
  refine ⟨by norm_num [mathAbs, ROW_TOLERANCE_Y], h2, ?_⟩
  rw [h2]
  decide

/-- A surviving identity pass: a map whose elements are all fixed points of
`f` is left unchanged by `filterMap f`. -/
lemma filterMap_fix {α : Type} (f : α → Option α) :
    ∀ l : List α, (∀ a ∈ l, f a = some a) → l.filterMap f = l := by
  intro l
  induction l with
  | nil => intro _; rfl
  | cons a l ih =>
    intro h
    rw [List.filterMap_cons, h a (List.mem_cons_self a l),
      ih (fun b hb => h b (List.mem_cons_of_mem a hb))]

lemma normalizeYear_20xx (s : String) (h : isYear20xx s = true) :
    normalizeYear s = some s := by
  obtain ⟨data⟩ := s
  unfold isYear20xx at h
  rcases data with _ | ⟨a, _ | ⟨b, _ | ⟨c, _ | ⟨d, _ | ⟨e, rest⟩⟩⟩⟩⟩
  · exact absurd (show (false : Bool) = true from h) (by decide)
  · exact absurd (show (false : Bool) = true from h) (by decide)
  · exact absurd (show (false : Bool) = true from h) (by decide)
  · exact absurd (show (false : Bool) = true from h) (by decide)
  · replace h : (decide (a = '2') && decide (b = '0') && c.isDigit && d.isDigit)
        = true := h
    simp only [Bool.and_eq_true, decide_eq_true_eq] at h
    obtain ⟨⟨⟨ha, hb⟩, hc⟩, hd⟩ := h
    subst ha
    subst hb
    simp [normalizeYear, dateMatch, dateMatchAux, boundaryBefore, boundaryAfter,
      hc, hd]
  · exact absurd (show (false : Bool) = true from h) (by decide)

lemma normalizeOne_injRaw (c : CleanRecord) (h : fixpointReady c = true) :
    normalizeOne (injRaw c) = some c := by
  obtain ⟨cat, sub, li, yr, val, un, conf, snip⟩ := c
  unfold fixpointReady at h
  simp only [Bool.and_eq_true] at h
  obtain ⟨⟨⟨⟨⟨⟨h20, hval⟩, hsnip⟩, hcat⟩, hunit⟩, hsub⟩, hconf⟩ := h
  simp only [Bool.not_eq_true', decide_eq_false_iff_not] at hsnip hcat hsub
  cases val with
  | none => exact absurd hval (by decide)
  | some n =>
    cases un with
    | none => exact absurd (show (false : Bool) = true from hunit) (by decide)
    | some u =>
      replace hunit : ¬ u = "" := by
        have h' : (!decide (u = "")) = true := hunit
        simpa using h'
      cases sub with
      | none =>
        unfold normalizeOne injRaw
        rw [normalizeYear_20xx _ h20]
        simp [normalizeNumber, truthyStr, hsnip, hcat, hunit, hconf]
        intro h1 h2 h3
        rcases (by simpa using hconf : conf = "High" ∨ conf = "Medium" ∨ conf = "Low")
          with h | h | h
        exacts [absurd h h1, absurd h h2, absurd h h3]
      | some s =>
        have hs : ¬ s = "" := fun hs => hsub (by rw [hs])
        unfold normalizeOne injRaw
        rw [normalizeYear_20xx _ h20]
        simp [normalizeNumber, truthyStr, hsnip, hcat, hunit, hs, hconf]
        intro h1 h2 h3
        rcases (by simpa using hconf : conf = "High" ∨ conf = "Medium" ∨ conf = "Low")
          with h | h | h
        exacts [absurd h h1, absurd h h2, absurd h h3]

/-- **C8** (corrected).  Normalizing an already-clean record set is a no-op
on its records PROVIDED each record additionally has a year of the form
`20xx`, a non-null value, a non-empty snippet and category, a non-empty
(non-null) unit string, and a subcategory that is not the empty string;
clean records outside these conditions (e.g. year `"1999"`) are dropped or
rewritten, so the claim's unconditional idempotence fails. -/
theorem C8_idempotence (cs : List CleanRecord) (o : Option String)
    (hclean : ∀ c ∈ cs, cleanRecordValid c = true)
    (hfix : ∀ c ∈ cs, fixpointReady c = true) :
    (normalizeRecords ⟨RecordsField.arr (cs.map injRaw), o⟩).records = cs := by
  have hrec : (normalizeRecords ⟨RecordsField.arr (cs.map injRaw), o⟩).records
      = (cs.map injRaw).filterMap normalizeOne := rfl
  rw [hrec, List.filterMap_map]
  exact filterMap_fix _ cs (fun c hc => normalizeOne_injRaw c (hfix c hc))

/-- Witness for C8 at a concrete input. -/
theorem C8_idempotence_witness :
    (normalizeRecords ⟨RecordsField.arr
        ([⟨"Revenue", none, "Revenue", "2024", some (JsNum.finite 100),
          some "Crores", "High", "Revenue: 100"⟩].map injRaw), none⟩).records
      = [⟨"Revenue", none, "Revenue", "2024", some (JsNum.finite 100),
          some "Crores", "High", "Revenue: 100"⟩] :=
  C8_idempotence
    [⟨"Revenue", none, "Revenue", "2024", some (JsNum.finite 100),
      some "Crores", "High", "Revenue: 100"⟩] none (by decide) (by decide)

/-- Counterexample to C8 as stated: a record that satisfies the clean
schema (4-digit year `"1999"`, in-range confidence, non-null value) is NOT
preserved by `normalizeRecords` — `normalizeYear "1999"` finds neither a
`20\d\d` token nor an `FY` pattern and the record is dropped. -/
theorem C8_idempotence_cx :
    cleanRecordValid ⟨"Revenue", none, "Legacy item", "1999",
        some (JsNum.finite 5), some "Crores", "High", "Legacy item: 5"⟩ = true
  ∧ (normalizeRecords ⟨RecordsField.arr
        [injRaw ⟨"Revenue", none, "Legacy item", "1999",
          some (JsNum.finite 5), some "Crores", "High", "Legacy item: 5"⟩],
        none⟩).records = [] := by
  decide

/-- Witness for C3 at a concrete input. -/
theorem C3_no_table_short_circuit_witness :
    runExtractionPipeline [⟨"Revenue", 10, 700, 5, 5, 1⟩]
      ⟨false, TableType.unknown, DetectConfidence.high⟩
      ⟨[⟨0, ColType.year, some "2024"⟩], [⟨0, Category.Revenue, none⟩]⟩ =
      { result := Except.ok
          { records := [], yearsDetected := [], notes := "No financial table detected." }
        stages := ["DETECTION"] } :=
  C3_no_table_short_circuit _ _ _ (Or.inl rfl)

end Finserve
